import Mathlib

/-!
Shallow embedding of the Farm-Intel (AgriSense AI) Streamlit application
(`src/app.py`) and verification of its specified properties.

Strings of the Python program are modelled as `List Char`.  The external
collaborators (identity service, inference endpoint, persistence store) are
modelled by their outcomes, passed as explicit parameters to the handlers,
exactly where the Python code makes the corresponding remote call.
-/

namespace FarmIntel

/-! ### Python string primitives

`str.find`, `str.rfind` and slicing `s[a:b]`, with Python's exact semantics
(`find`/`rfind` return -1 when absent; slice indices are clamped, and a
negative index counts from the end). -/

/-- Python `s.find(c)` for a single character: index of the first
occurrence, or -1 when absent. -/
def pyFind (c : Char) : List Char → Int
  | [] => -1
  | x :: xs =>
    if x = c then 0
    else
      let r := pyFind c xs
      if r < 0 then -1 else r + 1

/-- Python `s.rfind(c)` for a single character: index of the last
occurrence, or -1 when absent. -/
def pyRfind (c : Char) : List Char → Int
  | [] => -1
  | x :: xs =>
    let r := pyRfind c xs
    if 0 ≤ r then r + 1
    else if x = c then 0 else -1

/-- Adjust one slice bound the way Python does for `s[a:b]` (step 1):
a negative index counts from the end, then the bound is clamped to
`[0, n]`. -/
def pyAdjust (n : Nat) (i : Int) : Nat :=
  if i < 0 then (i + n).toNat else min i.toNat n

/-- Python slice `s[a:b]`. -/
def pySlice (s : List Char) (a b : Int) : List Char :=
  (s.take (pyAdjust s.length b)).drop (pyAdjust s.length a)

/-! ### JSON values and `json.loads`

`json.loads` is Python standard library code; it is modelled here by a
fuel-indexed recursive-descent parser for the JSON grammar.  Numbers are
kept as their lexemes, so no floating-point semantics is involved. -/

inductive Json where
  | null
  | bool (b : Bool)
  | num (lexeme : List Char)
  | str (s : List Char)
  | arr (elems : List Json)
  | obj (members : List (List Char × Json))

/-- JSON whitespace characters. -/
def isJsonWs (c : Char) : Bool :=
  c = ' ' || c = '\t' || c = '\n' || c = '\r'

/-- Drop leading JSON whitespace. -/
def skipWs : List Char → List Char
  | [] => []
  | c :: cs => if isJsonWs c then skipWs cs else c :: cs

/-- Value of a hexadecimal digit. -/
def hexVal (c : Char) : Option Nat :=
  if '0' ≤ c ∧ c ≤ '9' then some (c.toNat - '0'.toNat)
  else if 'a' ≤ c ∧ c ≤ 'f' then some (c.toNat - 'a'.toNat + 10)
  else if 'A' ≤ c ∧ c ≤ 'F' then some (c.toNat - 'A'.toNat + 10)
  else none

/-- Parse the body of a JSON string (the opening quote already consumed),
returning the decoded characters and the remaining input. -/
def parseStringBody : Nat → List Char → Option (List Char × List Char)
  | 0, _ => none
  | _, [] => none
  | fuel + 1, c :: cs =>
    if c = '"' then some ([], cs)
    else if c = '\\' then
      match cs with
      | 'u' :: h1 :: h2 :: h3 :: h4 :: cs2 =>
        match hexVal h1, hexVal h2, hexVal h3, hexVal h4 with
        | some a, some b, some d, some e =>
          match parseStringBody fuel cs2 with
          | some (s, rest) => some (Char.ofNat (((a * 16 + b) * 16 + d) * 16 + e) :: s, rest)
          | none => none
        | _, _, _, _ => none
      | e :: cs2 =>
        let esc : Option Char :=
          if e = '"' then some '"'
          else if e = '\\' then some '\\'
          else if e = '/' then some '/'
          else if e = 'b' then some (Char.ofNat 8)
          else if e = 'f' then some (Char.ofNat 12)
          else if e = 'n' then some '\n'
          else if e = 'r' then some '\r'
          else if e = 't' then some '\t'
          else none
        match esc with
        | some ch =>
          match parseStringBody fuel cs2 with
          | some (s, rest) => some (ch :: s, rest)
          | none => none
        | none => none
      | [] => none
    else
      match parseStringBody fuel cs with
      | some (s, rest) => some (c :: s, rest)
      | none => none

/-- Longest prefix of decimal digits, and the rest. -/
def digitSpan : List Char → List Char × List Char
  | [] => ([], [])
  | c :: cs =>
    if c.isDigit then
      let (d, r) := digitSpan cs
      (c :: d, r)
    else ([], c :: cs)

/-- Optional fraction part `.digits` of a JSON number. -/
def parseFrac (s : List Char) : Option (List Char × List Char) :=
  match s with
  | '.' :: t =>
    match digitSpan t with
    | ([], _) => none
    | (ds, r) => some ('.' :: ds, r)
  | _ => some ([], s)

/-- Optional exponent part `[eE][+-]?digits` of a JSON number. -/
def parseExp (s : List Char) : Option (List Char × List Char) :=
  match s with
  | c :: t =>
    if c = 'e' ∨ c = 'E' then
      let (sgn, t2) : List Char × List Char :=
        match t with
        | '+' :: u => (['+'], u)
        | '-' :: u => (['-'], u)
        | _ => ([], t)
      match digitSpan t2 with
      | ([], _) => none
      | (ds, r) => some (c :: (sgn ++ ds), r)
    else some ([], c :: t)
  | [] => some ([], [])

/-- Parse a JSON number, returning its lexeme and the remaining input. -/
def parseNumber (s : List Char) : Option (List Char × List Char) :=
  let (neg, s1) : List Char × List Char :=
    match s with
    | '-' :: t => (['-'], t)
    | _ => ([], s)
  match digitSpan s1 with
  | ([], _) => none
  | (ip, s2) =>
    if 2 ≤ ip.length ∧ ip.headD '0' = '0' then none
    else
      match parseFrac s2 with
      | none => none
      | some (fp, s3) =>
        match parseExp s3 with
        | none => none
        | some (ep, s4) => some (neg ++ ip ++ fp ++ ep, s4)

mutual

/-- Parse one JSON value (after leading whitespace). -/
def parseValue : Nat → List Char → Option (Json × List Char)
  | 0, _ => none
  | fuel + 1, s =>
    match skipWs s with
    | [] => none
    | c :: cs =>
      if c = 'n' then
        match cs with
        | 'u' :: 'l' :: 'l' :: r => some (.null, r)
        | _ => none
      else if c = 't' then
        match cs with
        | 'r' :: 'u' :: 'e' :: r => some (.bool true, r)
        | _ => none
      else if c = 'f' then
        match cs with
        | 'a' :: 'l' :: 's' :: 'e' :: r => some (.bool false, r)
        | _ => none
      else if c = '"' then
        match parseStringBody (cs.length + 1) cs with
        | some (str, r) => some (.str str, r)
        | none => none
      else if c = '[' then
        match skipWs cs with
        | ']' :: r => some (.arr [], r)
        | rest =>
          match parseItems fuel rest with
          | some (xs, r) => some (.arr xs, r)
          | none => none
      else if c = '{' then
        match skipWs cs with
        | '}' :: r => some (.obj [], r)
        | rest =>
          match parseMembers fuel rest with
          | some (ms, r) => some (.obj ms, r)
          | none => none
      else
        match parseNumber (c :: cs) with
        | some (lex, r) => some (.num lex, r)
        | none => none

/-- Parse the comma-separated items of a non-empty JSON array, up to and
including the closing bracket. -/
def parseItems : Nat → List Char → Option (List Json × List Char)
  | 0, _ => none
  | fuel + 1, s =>
    match parseValue fuel s with
    | none => none
    | some (v, r) =>
      match skipWs r with
      | ',' :: r2 =>
        match parseItems fuel r2 with
        | some (vs, r3) => some (v :: vs, r3)
        | none => none
      | ']' :: r2 => some ([v], r2)
      | _ => none

/-- Parse the comma-separated members of a non-empty JSON object, up to and
including the closing brace. -/
def parseMembers : Nat → List Char → Option (List (List Char × Json) × List Char)
  | 0, _ => none
  | fuel + 1, s =>
    match skipWs s with
    | '"' :: cs =>
      match parseStringBody (cs.length + 1) cs with
      | none => none
      | some (key, r) =>
        match skipWs r with
        | ':' :: r2 =>
          match parseValue fuel r2 with
          | none => none
          | some (v, r3) =>
            match skipWs r3 with
            | ',' :: r4 =>
              match parseMembers fuel r4 with
              | some (ms, r5) => some ((key, v) :: ms, r5)
              | none => none
            | '}' :: r4 => some ([(key, v)], r4)
            | _ => none
        | _ => none
    | _ => none

end

/-- Model of Python `json.loads`: parse one JSON value and require that
only whitespace follows; otherwise fail. -/
def parseJson (s : List Char) : Option Json :=
  match parseValue (2 * s.length + 4) s with
  | some (j, rest) => if skipWs rest = [] then some j else none
  | none => none

/-! ### The crop analysis engine (`analyze_crop_ai`, src/app.py lines 66-80) -/

/-- Failure of `analyze_crop_ai`: either the remote text-generation call
raised, or the returned text held no parseable JSON object.  In the Python
code both surface as an exception caught by the caller; the spec calls this
`InferenceError`. -/
inductive InferenceError where
  | requestFailed
  | malformedOutput

/-- `analyze_crop_ai` (src/app.py lines 66-80).  The remote
`hf_client.text_generation` call is modelled by its outcome `remote`
(`.error` = the call raised, `.ok res` = it returned the raw text `res`).
The rest is the source verbatim: `start = res.find("{")`,
`end = res.rfind("}") + 1`, `parsed = json.loads(res[start:end])`. -/
def analyze_crop_ai (remote : Except Unit (List Char)) : Except InferenceError Json :=
  match remote with
  | .error _ => .error .requestFailed
  | .ok res =>
    let start : Int := pyFind '{' res
    let stop : Int := pyRfind '}' res + 1
    match parseJson (pySlice res start stop) with
    | some parsed => .ok parsed
    | none => .error .malformedOutput

/-! ### Session state and records (src/app.py lines 37-44, 130-136, 207-215) -/

/-- The role selected in the login form's selectbox (`["User", "Admin"]`). -/
inductive Role where
  | user
  | admin
deriving DecidableEq

/-- `st.session_state` keys initialised to `None` at first page load
(src/app.py lines 37-44).  `auth` is later assigned the Python booleans
`True`/`False`, hence `Option Bool`. -/
structure SessionState where
  auth : Option Bool
  role : Option Role
  email : Option (List Char)
  results : Option Json

/-- The session right after first page load: every key is `None`. -/
def initialSession : SessionState :=
  { auth := none, role := none, email := none, results := none }

/-- A row inserted into the `login_logs` table (src/app.py lines 130-136).
`time` models the `datetime.now().isoformat()` string. -/
structure LoginLogRecord where
  email : List Char
  role : Role
  time : List Char

/-- A row inserted into the `crop_history` table (src/app.py lines
207-215).  The source serialises `result` with `json.dumps` at insert
time; the record here holds the `Json` value itself. -/
structure CropQueryRecord where
  email : Option (List Char)
  role : Option Role
  crop : List Char
  result : Json
  time : List Char

/-! ### The login form handler (src/app.py lines 114-144) -/

/-- Outcome of `supabase.auth.sign_in_with_password` as the login handler
observes it: the call returned a value with a truthy `.session`
(`success`), it returned a falsy value or one without a session
(`noSession`), or it raised an exception carrying message `msg`. -/
inductive SignInOutcome where
  | success
  | noSession
  | exception (msg : List Char)

/-- What one run of a form handler produced: the session state afterwards,
the records inserted into the store, and the `st.error` message shown, if
any. -/
structure LoginOutcome where
  state : SessionState
  inserted : List LoginLogRecord
  errMsg : Option (List Char)

/-- The message of `st.error("Authentication error.")`. -/
def authErrorMsg : List Char := "Authentication error.".toList

/-- The message of `st.error("Login failed.")`. -/
def loginFailedMsg : List Char := "Login failed.".toList

/-- The message of `st.error("Invalid Admin Passkey.")`. -/
def invalidPasskeyMsg : List Char := "Invalid Admin Passkey.".toList

/-- The login form handler (src/app.py lines 114-144).  `adminPasskey` is
the configured `ADMIN_PASSKEY` (from the environment, possibly absent);
`adminKey` is the submitted passkey field, which is `None` unless the
Admin role was selected.  `signIn` is the identity service's behaviour on
this call and `logInsertOk` whether the `login_logs` insert succeeds; an
exception from either is caught by the handler's `except` clause, which
shows the generic "Authentication error." message. -/
def loginHandler (adminPasskey : Option (List Char)) (signIn : SignInOutcome)
    (logInsertOk : Bool) (email : List Char) (roleChoice : Role)
    (adminKey : Option (List Char)) (now : List Char) (s : SessionState) :
    LoginOutcome :=
  match signIn with
  | .exception _ => { state := s, inserted := [], errMsg := some authErrorMsg }
  | .noSession => { state := s, inserted := [], errMsg := some loginFailedMsg }
  | .success =>
    if roleChoice = .admin ∧ adminKey ≠ adminPasskey then
      { state := s, inserted := [], errMsg := some invalidPasskeyMsg }
    else
      let s2 := { s with auth := some true, role := some roleChoice, email := some email }
      if logInsertOk then
        { state := s2
          inserted := [{ email := email, role := roleChoice, time := now }]
          errMsg := none }
      else
        { state := s2, inserted := [], errMsg := some authErrorMsg }

/-! ### The register form handler (src/app.py lines 155-163) -/

/-- Outcome of `supabase.auth.sign_up`: it returned, or raised an
exception whose `str(e)` is `msg`. -/
inductive SignUpOutcome where
  | ok
  | exception (msg : List Char)

/-- What the register handler displayed: `(error message, success message)`.
On an exception the source runs `st.error(str(e))`, displaying the
exception's own text. -/
def registerHandler (signUp : SignUpOutcome) : Option (List Char) × Option (List Char) :=
  match signUp with
  | .ok => (none, some "Account created.".toList)
  | .exception msg => (some msg, none)

/-! ### The logout button handler (src/app.py lines 186-188) -/

/-- The logout handler: `st.session_state.auth = False` followed by
`st.rerun()`.  No other key is touched. -/
def logoutHandler (s : SessionState) : SessionState :=
  { s with auth := some false }

/-! ### The crop analysis handler (src/app.py lines 198-218) -/

/-- What one run of the analysis handler produced. -/
structure CropOutcome where
  state : SessionState
  inserted : List CropQueryRecord
  errMsg : Option (List Char)

/-- The message of `st.error("AI failed. Check token or model.")`. -/
def aiFailedMsg : List Char := "AI failed. Check token or model.".toList

/-- The crop analysis handler (src/app.py lines 198-218), run when the
Analyze button is clicked with a non-empty crop name.  `remote` is the
outcome of the `hf_client.text_generation` call inside `analyze_crop_ai`;
`insertOk` is whether the `crop_history` insert succeeds.  Any exception
(inference, parse, or insert) is caught by the one `except` clause, which
shows "AI failed. Check token or model.". -/
def cropHandler (remote : Except Unit (List Char)) (insertOk : Bool)
    (crop : List Char) (now : List Char) (s : SessionState) : CropOutcome :=
  match analyze_crop_ai remote with
  | .error _ => { state := s, inserted := [], errMsg := some aiFailedMsg }
  | .ok result =>
    let s2 := { s with results := some result }
    if insertOk then
      { state := s2
        inserted := [{ email := s.email, role := s.role, crop := crop,
                       result := result, time := now }]
        errMsg := none }
    else
      { state := s2, inserted := [], errMsg := some aiFailedMsg }

/-! ### Result display and chart (src/app.py lines 220-244) -/

/-- Python truthiness of a parsed JSON value, as `if st.session_state.results:`
tests it: `None`/`False`/`0`/empty containers are falsy. -/
def jsonTruthy : Json → Bool
  | .null => false
  | .bool b => b
  | .num lex => !(lex = ['0'] || lex = ['-', '0'] || lex = [])
  | .str s => !s.isEmpty
  | .arr xs => !xs.isEmpty
  | .obj ms => !ms.isEmpty

/-- The result the display block renders: `st.session_state.results` when
it is set and truthy, nothing otherwise (src/app.py line 220). -/
def displayedResult (s : SessionState) : Option Json :=
  match s.results with
  | none => none
  | some r => if jsonTruthy r then some r else none

/-- Python `k.replace('_', ' ')`. -/
def underscoreToSpace (k : List Char) : List Char :=
  k.map fun c => if c = '_' then ' ' else c

/-- Python `str.title()`: the first letter of each alphabetic run is
uppercased, the rest lowercased. -/
def titleCase : List Char → List Char :=
  go false
where
  go : Bool → List Char → List Char
  | _, [] => []
  | prevAlpha, c :: cs =>
    (if c.isAlpha then (if prevAlpha then c.toLower else c.toUpper) else c)
      :: go c.isAlpha cs

/-- What the analysis display produces from a result `r` (src/app.py lines
220-244): one labelled row per item of `r.items()` (defined when `r` is an
object, as `.items()` exists only on dicts), and the bar chart's data.
The chart is built from the literals `x=[40, 30, 30]` and
`y=["Production Cost", "Transport", "Profit Margin"]` — it does not read
`r`. -/
structure AnalysisView where
  rows : Option (List (List Char × Json))
  chartX : List Nat
  chartY : List (List Char)

/-- Render the analysis block for result `r` (src/app.py lines 222-244). -/
def renderAnalysis (r : Json) : AnalysisView :=
  { rows :=
      match r with
      | .obj ms => some (ms.map fun m => (titleCase (underscoreToSpace m.1), m.2))
      | _ => none
    chartX := [40, 30, 30]
    chartY := ["Production Cost".toList, "Transport".toList, "Profit Margin".toList] }

/-- Does the object `j` have a member named `k`? -/
def hasKey (k : List Char) : Json → Bool
  | .obj ms => ms.any fun m => m.1 == k
  | _ => false

/-- The six keys the prompt requests (src/app.py lines 53-60). -/
def sixKeys : List (List Char) :=
  ["sowing_season".toList, "harvest_time".toList,
   "estimated_cost_per_acre".toList, "transport_cost_estimate".toList,
   "best_selling_price_range".toList, "profitability_comment".toList]

/-! ### Properties of the Python string primitives -/

theorem pyFind_not_mem {c : Char} {s : List Char} (h : c ∉ s) : pyFind c s = -1 := by
  induction s with
  | nil => rfl
  | cons x xs ih =>
    simp only [List.mem_cons, not_or] at h
    have hx : ¬ (x = c) := fun e => h.1 e.symm
    simp [pyFind, hx, ih h.2]

theorem pyFind_nonneg_of_mem {c : Char} {s : List Char} (h : c ∈ s) :
    0 ≤ pyFind c s := by
  induction s with
  | nil => simp at h
  | cons x xs ih =>
    by_cases hx : x = c
    · simp [pyFind, hx]
    · have hm : c ∈ xs := by
        rcases List.mem_cons.mp h with h1 | h1
        · exact absurd h1.symm hx
        · exact h1
      have h0 := ih hm
      simp only [pyFind, if_neg hx]
      split
      · omega
      · omega

theorem pyFind_append {c : Char} {pre rest : List Char} (h1 : c ∉ pre)
    (h2 : c ∈ rest) :
    pyFind c (pre ++ rest) = pre.length + pyFind c rest := by
  induction pre with
  | nil => simp
  | cons x xs ih =>
    simp only [List.mem_cons, not_or] at h1
    have hx : ¬ (x = c) := fun e => h1.1 e.symm
    have hr : 0 ≤ pyFind c (xs ++ rest) :=
      pyFind_nonneg_of_mem (List.mem_append_right _ h2)
    rw [ih h1.2] at hr
    simp only [List.cons_append, pyFind, List.append_eq, if_neg hx, ih h1.2]
    rw [if_neg (by omega)]
    simp only [List.length_cons]
    push_cast
    ring

theorem pyFind_cons_self (c : Char) (s : List Char) : pyFind c (c :: s) = 0 := by
  simp [pyFind]

theorem pyRfind_not_mem {c : Char} {s : List Char} (h : c ∉ s) :
    pyRfind c s = -1 := by
  induction s with
  | nil => rfl
  | cons x xs ih =>
    simp only [List.mem_cons, not_or] at h
    have hx : ¬ (x = c) := fun e => h.1 e.symm
    simp [pyRfind, ih h.2, hx]

theorem pyRfind_append_not_mem {c : Char} {post : List Char} (h : c ∉ post)
    (s : List Char) : pyRfind c (s ++ post) = pyRfind c s := by
  induction s with
  | nil => simpa using pyRfind_not_mem h
  | cons x xs ih => simp only [List.cons_append, pyRfind, List.append_eq, ih]

theorem pyRfind_append_self (c : Char) (s : List Char) :
    pyRfind c (s ++ [c]) = s.length := by
  induction s with
  | nil => simp [pyRfind]
  | cons x xs ih =>
    simp only [List.cons_append, pyRfind, List.append_eq, ih]
    rw [if_pos (Int.natCast_nonneg xs.length)]
    simp only [List.length_cons]
    push_cast
    ring

theorem pyRfind_get {c : Char} {s : List Char} (h : c ∈ s) :
    ∃ i : Nat, pyRfind c s = (i : Int) ∧ i < s.length ∧ s.getD i ' ' = c := by
  induction s with
  | nil => simp at h
  | cons x xs ih =>
    by_cases hm : c ∈ xs
    · obtain ⟨i, h1, h2, h3⟩ := ih hm
      refine ⟨i + 1, ?_, by simpa using Nat.succ_lt_succ h2, by simpa using h3⟩
      simp only [pyRfind, h1]
      rw [if_pos (by positivity)]
      push_cast
      ring
    · have hx : x = c := by
        rcases List.mem_cons.mp h with h1 | h1
        · exact h1.symm
        · exact absurd h1 hm
      refine ⟨0, ?_, by simp, by simp [hx]⟩
      simp [pyRfind, pyRfind_not_mem hm, hx]

theorem drop_pred_of_length {l : List Char} {i : Nat} (h : l.length = i + 1) :
    l.drop i = [l.getD i ' '] := by
  induction l generalizing i with
  | nil => simp at h
  | cons x xs ih =>
    cases i with
    | zero =>
      have hx : xs = [] := List.length_eq_zero.mp (by simpa using h)
      subst hx
      simp
    | succ k =>
      have hx : xs.length = k + 1 := by simpa using h
      simpa using ih hx

theorem pySlice_extract (pre mid post : List Char) :
    pySlice (pre ++ mid ++ post) (pre.length : Int)
      ((pre.length + mid.length : Nat) : Int) = mid := by
  have hs : pre ++ mid ++ post = (pre ++ mid) ++ post := by
    rw [List.append_assoc]
  have hlen : pre.length + mid.length ≤ (pre ++ mid ++ post).length := by
    simp
  have ha : pyAdjust (pre ++ mid ++ post).length (pre.length : Int) = pre.length := by
    simp only [pyAdjust]
    rw [if_neg (by omega)]
    simp only [Int.toNat_ofNat]
    exact Nat.min_eq_left (le_trans (Nat.le_add_right _ _) hlen)
  have hb : pyAdjust (pre ++ mid ++ post).length
      ((pre.length + mid.length : Nat) : Int) = pre.length + mid.length := by
    simp only [pyAdjust]
    rw [if_neg (by omega)]
    simp only [Int.toNat_ofNat]
    exact Nat.min_eq_left hlen
  rw [pySlice, ha, hb, hs, List.take_left' (by simp), List.drop_left' rfl]

/-! ### The claims -/

/-- Claim C1: for every raw model output that contains at least one `{`
and at least one `}` — written here as `pre ++ ('{' :: core ++ ['}']) ++ post`
with no `{` in `pre` and no `}` in `post`, so that `'{' :: core ++ ['}']`
is exactly the substring from the first `{` to the last `}`, inclusive —
if that substring parses as JSON then `analyze_crop_ai` returns exactly
the parsed object, unchanged, regardless of the surrounding prose. -/
theorem analyze_extracts_first_to_last_brace
    (pre core post : List Char) (hpre : '{' ∉ pre) (hpost : '}' ∉ post)
    (j : Json) (hparse : parseJson ('{' :: core ++ ['}']) = some j) :
    analyze_crop_ai (.ok (pre ++ ('{' :: core ++ ['}']) ++ post)) = .ok j := by
  set mid : List Char := '{' :: core ++ ['}'] with hmid
  have hmem : '{' ∈ mid ++ post := by simp [hmid]
  have hfind : pyFind '{' (pre ++ mid ++ post) = (pre.length : Int) := by
    rw [List.append_assoc, pyFind_append hpre hmem]
    have : mid ++ post = '{' :: ((core ++ ['}']) ++ post) := by
      simp [hmid]
    rw [this, pyFind_cons_self, add_zero]
  have hrfind : pyRfind '}' (pre ++ mid ++ post)
      = ((pre.length + (core.length + 1) : Nat) : Int) := by
    rw [pyRfind_append_not_mem hpost]
    have : pre ++ mid = (pre ++ '{' :: core) ++ ['}'] := by
      rw [hmid, List.append_assoc]
    rw [this, pyRfind_append_self]
    simp
  have hstop : ((pre.length + (core.length + 1) : Nat) : Int) + 1
      = ((pre.length + mid.length : Nat) : Int) := by
    have hm : mid.length = core.length + 2 := by simp [hmid]
    rw [hm]
    push_cast
    ring
  have hslice := pySlice_extract pre mid post
  simp only [analyze_crop_ai, hfind, hrfind, hstop, hslice, hparse]

/-- Witness for C1 at the spec's own scenario shape: prose around
`{"a": "b"}`. -/
theorem analyze_extracts_first_to_last_brace_witness :
    analyze_crop_ai (.ok (("Here you go: ".toList
        ++ ('{' :: "\"a\": \"b\"".toList ++ ['}']) ++ " thanks".toList)))
      = .ok (Json.obj [("a".toList, Json.str "b".toList)]) :=
  analyze_extracts_first_to_last_brace
    ("Here you go: ".toList) ("\"a\": \"b\"".toList) (" thanks".toList)
    (by decide) (by decide) _ rfl

/-- Claim C2: for every raw model output containing no `{` or no `}`,
`analyze_crop_ai` fails with an `InferenceError` and produces no result. -/
theorem analyze_missing_delimiter_errors (res : List Char)
    (h : '{' ∉ res ∨ '}' ∉ res) :
    analyze_crop_ai (.ok res) = .error .malformedOutput := by
  by_cases hr : '}' ∈ res
  · have hl : '{' ∉ res := h.resolve_right fun hh => hh hr
    have hfind := pyFind_not_mem hl
    obtain ⟨i, h1, h2, h3⟩ := pyRfind_get hr
    have hlen : 1 ≤ res.length := by
      cases res with
      | nil => simp at hr
      | cons a as => simp
    have hadj1 : pyAdjust res.length (-1) = res.length - 1 := by
      simp only [pyAdjust]
      rw [if_pos (by omega)]
      omega
    have hstop : pyRfind '}' res + 1 = ((i + 1 : Nat) : Int) := by
      rw [h1]
      push_cast
      ring
    have hadj2 : pyAdjust res.length ((i + 1 : Nat) : Int) = i + 1 := by
      simp only [pyAdjust]
      rw [if_neg (by omega), Int.toNat_ofNat]
      omega
    by_cases hi : i + 1 = res.length
    · have hslice : pySlice res (pyFind '{' res) (pyRfind '}' res + 1) = ['}'] := by
        rw [hfind, hstop, pySlice, hadj1, hadj2, hi, List.take_length]
        rw [drop_pred_of_length (by omega)]
        have : res.length - 1 = i := by omega
        rw [this, h3]
      simp only [analyze_crop_ai, hslice]
      rfl
    · have hslice : pySlice res (pyFind '{' res) (pyRfind '}' res + 1) = [] := by
        rw [hfind, hstop, pySlice, hadj1, hadj2]
        rw [List.drop_eq_nil_iff]
        rw [List.length_take]
        omega
      simp only [analyze_crop_ai, hslice]
      rfl
  · have hrfind := pyRfind_not_mem hr
    have hslice : pySlice res (pyFind '{' res) (pyRfind '}' res + 1) = [] := by
      rw [hrfind]
      norm_num [pySlice, pyAdjust]
    simp only [analyze_crop_ai, hslice]
    rfl

/-- Witness for C2 at the spec's own scenario: the model returns
"No JSON here". -/
theorem analyze_missing_delimiter_errors_witness :
    analyze_crop_ai (.ok ("No JSON here".toList)) = .error .malformedOutput :=
  analyze_missing_delimiter_errors ("No JSON here".toList) (Or.inl (by decide))

/-- Claim C3 counterexample: `analyze_crop_ai` succeeds on a model output
whose JSON object has none of the six fixed keys and returns that object
to the caller unchanged — no schema validation happens, so an object
missing the six keys is returned (refuting the claimed invariant). -/
theorem analyze_no_schema_validation_cex :
    analyze_crop_ai (.ok ("\x7b\"note\": \"hi\"\x7d".toList))
        = .ok (Json.obj [("note".toList, Json.str "hi".toList)])
      ∧ (sixKeys.all fun k =>
          !(hasKey k (Json.obj [("note".toList, Json.str "hi".toList)]))) = true :=
  ⟨rfl, rfl⟩

/-- Claim C3 (amended): when `analyze_crop_ai` succeeds, the returned
value is exactly the JSON parse of the first-`{`-to-last-`}` candidate
substring, with no validation of the six keys — objects missing any of
them are returned as-is, and callers must tolerate that. -/
theorem analyze_success_is_parse_of_candidate (res : List Char) (j : Json)
    (h : analyze_crop_ai (.ok res) = .ok j) :
    parseJson (pySlice res (pyFind '{' res) (pyRfind '}' res + 1)) = some j := by
  rcases hp : parseJson (pySlice res (pyFind '{' res) (pyRfind '}' res + 1)) with _ | x
  · simp only [analyze_crop_ai, hp] at h
    exact Except.noConfusion h
  · simp only [analyze_crop_ai, hp, Except.ok.injEq] at h
    rw [h]

/-- Witness for the amended C3 at a concrete input. -/
theorem analyze_success_is_parse_of_candidate_witness :
    parseJson (pySlice ("\x7b\"a\": 1\x7d".toList) (pyFind '{' ("\x7b\"a\": 1\x7d".toList))
        (pyRfind '}' ("\x7b\"a\": 1\x7d".toList) + 1))
      = some (Json.obj [("a".toList, Json.num ['1'])]) :=
  analyze_success_is_parse_of_candidate _ _ rfl

/-- Claim C4: a login attempt with claimed role Admin and a passkey
different from the configured one fails even though the identity service
accepted the credentials: the session state is unchanged (auth, role and
email stay as they were) and no login_logs record is inserted. -/
theorem admin_wrong_passkey_rejected (adminPasskey adminKey : Option (List Char))
    (hkey : adminKey ≠ adminPasskey) (logInsertOk : Bool)
    (email now : List Char) (s : SessionState) :
    loginHandler adminPasskey .success logInsertOk email .admin adminKey now s
      = { state := s, inserted := [], errMsg := some invalidPasskeyMsg } := by
  simp [loginHandler, hkey]

/-- Witness for C4 at the spec's own scenario: configured passkey
"secret", submitted passkey "wrong". -/
theorem admin_wrong_passkey_rejected_witness :
    loginHandler (some ("secret".toList)) .success true ("a@b.c".toList) .admin
        (some ("wrong".toList)) ("t0".toList) initialSession
      = { state := initialSession, inserted := [], errMsg := some invalidPasskeyMsg } :=
  admin_wrong_passkey_rejected _ _ (by decide) _ _ _ _

/-- Claim C5: every successful login (one showing no error) inserts
exactly one login_logs record, recording the claimed role; every
successful analysis inserts exactly one crop_history record; and no
single login or analysis run ever inserts more than one record. -/
theorem one_record_per_success :
    (∀ pk si ok email role key now s,
        (loginHandler pk si ok email role key now s).errMsg = none →
          (loginHandler pk si ok email role key now s).inserted
            = [{ email := email, role := role, time := now }])
  ∧ (∀ pk si ok email role key now s,
        (loginHandler pk si ok email role key now s).inserted.length ≤ 1)
  ∧ (∀ remote iok crop now s,
        (cropHandler remote iok crop now s).errMsg = none →
          ∃ result, analyze_crop_ai remote = .ok result ∧
            (cropHandler remote iok crop now s).inserted
              = [{ email := s.email, role := s.role, crop := crop,
                   result := result, time := now }])
  ∧ (∀ remote iok crop now s,
        (cropHandler remote iok crop now s).inserted.length ≤ 1) := by
  refine ⟨?_, ?_, ?_, ?_⟩
  · intro pk si ok email role key now s h
    cases si with
    | exception m => simp [loginHandler] at h
    | noSession => simp [loginHandler] at h
    | success =>
      by_cases hc : role = .admin ∧ key ≠ pk
      · simp [loginHandler, hc] at h
      · cases ok with
        | false => simp [loginHandler, hc] at h
        | true => simp [loginHandler, hc]
  · intro pk si ok email role key now s
    cases si with
    | exception m => simp [loginHandler]
    | noSession => simp [loginHandler]
    | success =>
      by_cases hc : role = .admin ∧ key ≠ pk
      · simp [loginHandler, hc]
      · cases ok with
        | false => simp [loginHandler, hc]
        | true => simp [loginHandler, hc]
  · intro remote iok crop now s h
    rcases hA : analyze_crop_ai remote with e | result
    · simp [cropHandler, hA] at h
    · refine ⟨result, rfl, ?_⟩
      cases iok with
      | false => simp [cropHandler, hA] at h
      | true => simp [cropHandler, hA]
  · intro remote iok crop now s
    rcases hA : analyze_crop_ai remote with e | result
    · simp [cropHandler, hA]
    · cases iok with
      | false => simp [cropHandler, hA]
      | true => simp [cropHandler, hA]

/-- Witness for C5: one concrete successful login and one concrete
successful analysis, each inserting exactly its one record. -/
theorem one_record_per_success_witness :
    (loginHandler (some ("secret".toList)) .success true ("u@x.c".toList) .user none
        ("t1".toList) initialSession).inserted
      = [{ email := "u@x.c".toList, role := .user, time := "t1".toList }]
  ∧ ∃ result, analyze_crop_ai (.ok ("\x7b\"a\": \"b\"\x7d".toList)) = .ok result ∧
      (cropHandler (.ok ("\x7b\"a\": \"b\"\x7d".toList)) true ("Tomato".toList)
          ("t2".toList) initialSession).inserted
        = [{ email := none, role := none, crop := "Tomato".toList,
             result := result, time := "t2".toList }] :=
  ⟨one_record_per_success.1 _ _ _ _ _ _ _ _ rfl,
   one_record_per_success.2.2.1 _ _ _ _ _ rfl⟩

/-- A session state as left by an admin login followed by one analysis. -/
def loggedInAdminSession : SessionState :=
  { auth := some true
    role := some .admin
    email := some ("a@b.c".toList)
    results := some (Json.obj []) }

/-- Claim C6 counterexample: logout does not reset the session to null —
only the auth flag is mutated (to `False`, not null); role, email and the
last result keep their values. -/
theorem logout_does_not_reset_cex :
    (logoutHandler loggedInAdminSession).auth = some false
  ∧ (logoutHandler loggedInAdminSession).role = some .admin
  ∧ (logoutHandler loggedInAdminSession).email = some ("a@b.c".toList)
  ∧ (logoutHandler loggedInAdminSession).results = some (Json.obj []) :=
  ⟨rfl, rfl, rfl, rfl⟩

/-- Claim C6 (amended): on logout only the authenticated flag is mutated,
and to `False` rather than null; role, email and the last result are left
unchanged, for every session state in which logout is invoked. -/
theorem logout_only_clears_auth (s : SessionState) :
    (logoutHandler s).auth = some false ∧ (logoutHandler s).role = s.role
  ∧ (logoutHandler s).email = s.email ∧ (logoutHandler s).results = s.results :=
  ⟨rfl, rfl, rfl, rfl⟩

/-- Claim C7 counterexample: an exception from the identity service during
sign-up is surfaced with its own text (`st.error(str(e))`), not as a
generic message with the detail suppressed. -/
theorem register_shows_exception_detail_cex :
    (registerHandler (.exception ("User already registered".toList))).1
      = some ("User already registered".toList) :=
  rfl

/-- Claim C7 (amended): sign-in exceptions are surfaced as the generic
"Authentication error." message, independently of the exception's text,
with no state change and no record written; sign-up exceptions, however,
are surfaced with the exception's own text. -/
theorem auth_exception_surfacing :
    (∀ pk m ok email role key now s,
        loginHandler pk (.exception m) ok email role key now s
          = { state := s, inserted := [], errMsg := some authErrorMsg })
  ∧ (∀ m, registerHandler (.exception m) = (some m, none)) :=
  ⟨fun _ _ _ _ _ _ _ _ => rfl, fun _ => rfl⟩

/-- Claim C8 counterexample: when the analysis parses but the
crop_history insert raises, the result is stored in the session and no
record is inserted, yet the persistence failure is NOT invisible — the
handler shows the generic "AI failed. Check token or model." message. -/
theorem persistence_failure_not_invisible_cex :
    (cropHandler (.ok ("\x7b\"sowing_season\": \"June\"\x7d".toList)) false
        ("Tomato".toList) ("t3".toList) initialSession).errMsg = some aiFailedMsg
  ∧ (cropHandler (.ok ("\x7b\"sowing_season\": \"June\"\x7d".toList)) false
        ("Tomato".toList) ("t3".toList) initialSession).state.results
      = some (Json.obj [("sowing_season".toList, Json.str "June".toList)])
  ∧ (cropHandler (.ok ("\x7b\"sowing_season\": \"June\"\x7d".toList)) false
        ("Tomato".toList) ("t3".toList) initialSession).inserted = [] :=
  ⟨rfl, rfl, rfl⟩

/-- Claim C8 (amended): when `analyze_crop_ai` succeeds but the
crop_history insert fails, the parsed result is still stored in the
session (and displayed whenever it is truthy, e.g. a non-empty object)
and no record is inserted, but the persistence failure is surfaced as the
same generic "AI failed. Check token or model." message as an inference
failure, rather than being invisible. -/
theorem analysis_persist_failure_keeps_result (remote : Except Unit (List Char))
    (result : Json) (crop now : List Char) (s : SessionState)
    (h : analyze_crop_ai remote = .ok result) :
    (cropHandler remote false crop now s).state.results = some result
  ∧ (cropHandler remote false crop now s).inserted = []
  ∧ (cropHandler remote false crop now s).errMsg = some aiFailedMsg
  ∧ (jsonTruthy result = true →
      displayedResult (cropHandler remote false crop now s).state = some result) := by
  refine ⟨?_, ?_, ?_, ?_⟩
  · simp [cropHandler, h]
  · simp [cropHandler, h]
  · simp [cropHandler, h]
  · intro ht
    simp [cropHandler, h, displayedResult, ht]

/-- Witness for the amended C8 at a concrete input. -/
theorem analysis_persist_failure_keeps_result_witness :
    (cropHandler (.ok ("\x7b\"k\": \"v\"\x7d".toList)) false ("Rice".toList)
        ("t4".toList) initialSession).state.results
      = some (Json.obj [("k".toList, Json.str "v".toList)])
  ∧ (cropHandler (.ok ("\x7b\"k\": \"v\"\x7d".toList)) false ("Rice".toList)
        ("t4".toList) initialSession).inserted = []
  ∧ (cropHandler (.ok ("\x7b\"k\": \"v\"\x7d".toList)) false ("Rice".toList)
        ("t4".toList) initialSession).errMsg = some aiFailedMsg
  ∧ (jsonTruthy (Json.obj [("k".toList, Json.str "v".toList)]) = true →
      displayedResult (cropHandler (.ok ("\x7b\"k\": \"v\"\x7d".toList)) false
          ("Rice".toList) ("t4".toList) initialSession).state
        = some (Json.obj [("k".toList, Json.str "v".toList)])) :=
  analysis_persist_failure_keeps_result _ _ _ _ _ rfl

/-- Claim C9: the rendered bar chart always uses the three fixed
categories "Production Cost", "Transport", "Profit Margin" with the fixed
values 40, 30, 30, for every analysis result — the chart data is a
constant, independent of the result the summary rows are built from. -/
theorem chart_is_constant :
    (∀ r : Json, (renderAnalysis r).chartX = [40, 30, 30]
        ∧ (renderAnalysis r).chartY
          = ["Production Cost".toList, "Transport".toList, "Profit Margin".toList])
  ∧ ∀ r1 r2 : Json,
      (renderAnalysis r1).chartX = (renderAnalysis r2).chartX
        ∧ (renderAnalysis r1).chartY = (renderAnalysis r2).chartY :=
  ⟨fun _ => ⟨rfl, rfl⟩, fun _ _ => ⟨rfl, rfl⟩⟩

/-- Claim C10: when the identity service accepts the credentials and the
passkey check passes but the login_logs insert raises, the session is
nevertheless left authenticated, with the submitted role and email, no
record is inserted, and the "Authentication error." message is shown —
the session-state update is not rolled back. -/
theorem log_failure_leaves_session_authenticated
    (pk key : Option (List Char)) (email now : List Char) (role : Role)
    (s : SessionState) (hkey : role = .admin → key = pk) :
    loginHandler pk .success false email role key now s
      = { state := { s with auth := some true, role := some role, email := some email }
          inserted := []
          errMsg := some authErrorMsg } := by
  have hc : ¬ (role = .admin ∧ key ≠ pk) := by
    rintro ⟨h1, h2⟩
    exact h2 (hkey h1)
  simp [loginHandler, hc]

/-- Witness for C10: an admin login with the right passkey whose log
insert fails. -/
theorem log_failure_leaves_session_authenticated_witness :
    loginHandler (some ("secret".toList)) .success false ("a@b.c".toList) .admin
        (some ("secret".toList)) ("t5".toList) initialSession
      = { state := { auth := some true, role := some .admin, email := some ("a@b.c".toList), results := none }
          inserted := []
          errMsg := some authErrorMsg } :=
  log_failure_leaves_session_authenticated _ _ _ _ _ _ (fun _ => rfl)

end FarmIntel
